import Mathlib

/-!
# Verification of the financial data synchronizer (`data_fetcher.py`)

Shallow embedding of `FinancialDataFetcher` from `src/data_fetcher.py`:

* `fetch_stock_data` — the per-symbol fetch → clean → indicator-augment →
  persist loop (lines 30–102).
* `store_data` — the persistence step (lines 104–124): it always deletes all
  existing rows for the symbol (`delete_many`) and then inserts the new
  records (`insert_many`).
* `get_summary_metrics` — the trailing-window summary computation
  (lines 126–177).

Conventions of the embedding:

* Prices, returns and averages are exact rationals (`ℚ`); real floating point
  is out of scope.  The standard deviation needs a square root, so values
  derived through `std` live in `ℝ` (`Real.sqrt`); every other quantity stays
  in `ℚ` and is executable.
* Dates are modelled as natural numbers; the code's ISO `YYYY-MM-DD` strings
  compare lexicographically exactly as their calendar order, so only the order
  matters and `ℕ` is an order-faithful stand-in.
* The MongoDB collection is a list of documents in insertion order.
  `delete_many {Symbol: s}` is `List.filter`, `insert_many` is append.
* `pd.to_numeric(errors 'coerce')` is modelled by letting raw cells already be
  `Option ℚ` (`none` = NaN after coercion).
* Division by zero of a float produces `inf`/NaN in pandas; the rational
  embedding does not model infinities, so every theorem touching a quotient
  carries an explicit non-zero hypothesis.
-/

/-- One raw row fetched from the market data source (`ticker.history`, after
`reset_index` and numeric coercion, lines 46–62).  `none` models a NaN cell. -/
structure RawBar where
  Date : ℕ
  Open : Option ℚ
  High : Option ℚ
  Low : Option ℚ
  Close : Option ℚ
  Volume : Option ℚ
  deriving DecidableEq

/-- One processed document as stored in the `stock_data` collection
(lines 72–90).  `V` is the type of the `Volatility` cell: the pipeline
produces real values (a square root), while concrete store-level examples can
instantiate `V := ℚ`.  `Close` is a plain `ℚ` because rows with a NaN close
are dropped before this record is built (line 65). -/
structure Bar (V : Type) where
  Symbol : String
  Date : ℕ
  Open : Option ℚ
  High : Option ℚ
  Low : Option ℚ
  Close : ℚ
  Volume : Option ℚ
  Daily_Return : ℚ
  Volatility : V
  SMA_20 : ℚ
  SMA_50 : ℚ
  deriving DecidableEq

/-- `df['Close'].pct_change()` (line 72): first entry NaN, then
`(close[i] - close[i-1]) / close[i-1]`. -/
def pct_change : List ℚ → List (Option ℚ)
  | [] => []
  | x :: xs => none :: List.zipWith (fun prev cur => some ((cur - prev) / prev)) (x :: xs) xs

/-- The trailing window of up to `w` observations ending at index `i`. -/
def trailing_window {α : Type} (xs : List α) (i w : ℕ) : List α :=
  (xs.take (i + 1)).drop (i + 1 - w)

/-- `.rolling(window := w, min_periods := 1).mean()` over a series with no
missing values (line 74–75).  The window shrinks at the start; the result at
`i` is defined whenever the window holds at least one observation. -/
def rolling_mean (w : ℕ) (xs : List ℚ) : List (Option ℚ) :=
  (List.range xs.length).map fun i =>
    let win := trailing_window xs i w
    if 1 ≤ win.length then some (win.sum / (win.length : ℚ)) else none

/-- Sample variance (`ddof = 1`, pandas default) of a list of rationals.
Only meaningful for two or more observations; callers guard on that. -/
def sample_variance (xs : List ℚ) : ℚ :=
  ((xs.map fun x => (x - xs.sum / (xs.length : ℚ)) ^ 2).sum) / ((xs.length : ℚ) - 1)

/-- `.rolling(window := w, min_periods := 1).std()` over a series that may
contain NaN (line 73 runs on `Daily_Return` before its NaN is filled).
pandas excludes NaN cells from the window; the result is NaN when fewer than
`min_periods = 1` valid cells remain, and also when only one valid cell
remains (sample deviation with `ddof = 1` of a single observation). -/
noncomputable def rolling_std (w : ℕ) (xs : List (Option ℚ)) : List (Option ℝ) :=
  (List.range xs.length).map fun i =>
    let valid := (trailing_window xs i w).filterMap id
    if valid.length ≤ 1 then none else some (Real.sqrt ((sample_variance valid : ℚ) : ℝ))

/-- `.fillna(c)` with a scalar (lines 78–79). -/
def fillna_scalar {α : Type} (c : α) (xs : List (Option α)) : List α :=
  xs.map fun o => o.getD c

/-- `.fillna(other_series)` — positional fill from a second series
(lines 80–81 fill the SMA columns from `df['Close']`). -/
def fillna_series {α : Type} (xs : List (Option α)) (ys : List α) : List α :=
  List.zipWith (fun o c => o.getD c) xs ys

/-- `df['Daily_Return']` as finally stored: `pct_change` then `fillna(0)`
(lines 72 and 78). -/
def daily_return_col (closes : List ℚ) : List ℚ :=
  fillna_scalar 0 (pct_change closes)

/-- `df['Volatility']` as finally stored: rolling std of the *unfilled*
`Daily_Return`, then `fillna(0)` (lines 73 and 79). -/
noncomputable def volatility_col (closes : List ℚ) : List ℝ :=
  fillna_scalar 0 (rolling_std 20 (pct_change closes))

/-- `df['SMA_20']` as finally stored: rolling mean then `fillna(df['Close'])`
(lines 74 and 80). -/
def sma_20_col (closes : List ℚ) : List ℚ :=
  fillna_series (rolling_mean 20 closes) closes

/-- `df['SMA_50']` as finally stored (lines 75 and 81). -/
def sma_50_col (closes : List ℚ) : List ℚ :=
  fillna_series (rolling_mean 50 closes) closes

/-- Reassemble the augmented dataframe rows into stored documents
(`df.to_dict('records')`, line 90): one document per cleaned row, carrying the
raw OHLV cells, the close, and the four derived columns, with the `Symbol`
column set to the fetched symbol (line 84). -/
def mkBars {V : Type} (symbol : String) :
    List RawBar → List ℚ → List ℚ → List V → List ℚ → List ℚ → List (Bar V)
  | r :: rs, c :: cs, d :: ds, v :: vs, m :: ms, n :: ns =>
      { Symbol := symbol, Date := r.Date, Open := r.Open, High := r.High,
        Low := r.Low, Close := c, Volume := r.Volume, Daily_Return := d,
        Volatility := v, SMA_20 := m, SMA_50 := n } ::
        mkBars symbol rs cs ds vs ms ns
  | _, _, _, _, _, _ => []

/-- The per-symbol body of `fetch_stock_data` (lines 46–90): skip when the
fetch is empty, drop rows with NaN close, skip when cleaning empties the
frame, otherwise compute the derived columns and build the records. -/
noncomputable def processSymbol (symbol : String) (raw : List RawBar) : List (Bar ℝ) :=
  if raw.isEmpty then []
  else
    let rows := raw.filter fun r => r.Close.isSome
    if rows.isEmpty then []
    else
      let closes := rows.filterMap fun r => r.Close
      mkBars symbol rows closes (daily_return_col closes) (volatility_col closes)
        (sma_20_col closes) (sma_50_col closes)

/-- `store_data` (lines 104–124): return untouched on an empty record list
(lines 108–110), otherwise `delete_many {Symbol: symbol}` then
`insert_many records` (lines 116–119). -/
def store_data {V : Type} (store : List (Bar V)) (symbol : String)
    (records : List (Bar V)) : List (Bar V) :=
  if records.isEmpty then store
  else (store.filter fun b => b.Symbol != symbol) ++ records

/-- All documents stored for one symbol, in store order. -/
def stored_series {V : Type} (store : List (Bar V)) (symbol : String) : List (Bar V) :=
  store.filter fun b => b.Symbol == symbol

/-- The multi-symbol loop of `fetch_stock_data` (lines 37–102).  The market
data source is a function that either returns raw bars or raises
(`Except.error`); the per-symbol `try/except` catches the failure, logs it and
continues (lines 98–100), so the loop itself is total.  The returned pair is
the updated store together with `all_data` — the successfully processed
symbols and their records (line 95). -/
noncomputable def fetch_stock_data (f : String → Except String (List RawBar)) :
    List String → List (Bar ℝ) → List (Bar ℝ) × List (String × List (Bar ℝ))
  | [], store => (store, [])
  | s :: rest, store =>
    match f s with
    | .error _ => fetch_stock_data f rest store
    | .ok raw =>
      let records := processSymbol s raw
      if records.isEmpty then fetch_stock_data f rest store
      else
        let out := fetch_stock_data f rest (store_data store s records)
        (out.fst, (s, records) :: out.snd)

/-! ## Concrete fixtures used by counterexamples and witnesses -/

/-- A concrete stored document (derived cells frozen at placeholder values;
the store operations never inspect them). -/
def mkBar (symbol : String) (date : ℕ) (close : ℚ) : Bar ℚ :=
  { Symbol := symbol, Date := date, Open := none, High := none, Low := none,
    Close := close, Volume := none, Daily_Return := 0, Volatility := 0,
    SMA_20 := close, SMA_50 := close }

/-- Ten stored bars for symbol `"S"`, dates 1..10. -/
def legacyStore : List (Bar ℚ) :=
  (List.range 10).map fun i => mkBar "S" (i + 1) 100

/-- Five freshly fetched-and-cleaned bars for `"S"`, dates 8..12 — an
overlapping refetch window. -/
def refetchBars : List (Bar ℚ) :=
  (List.range 5).map fun i => mkBar "S" (i + 8) 200

/-! ## Claims about the persistence step -/

/-- **C1, counterexample.**  The claim says an incremental sync over stored
dates 1..10 whose fetch returns dates 8..12 leaves 12 bars with dates 1..7
preserved.  The code's only persist path deletes every row of the symbol
before inserting, so the store ends with exactly the 5 refetched bars; the
date-1 bar is gone and the result has 5 bars, not 12. -/
theorem C1_store_overlap_counterexample :
    (store_data legacyStore "S" refetchBars).map (fun b => b.Date) = [8, 9, 10, 11, 12] ∧
    (store_data legacyStore "S" refetchBars).length ≠ 12 ∧
    mkBar "S" 1 100 ∉ store_data legacyStore "S" refetchBars := by
  decide

/-- **C10.**  `store_data` with an empty record list returns before touching
the collection (lines 108–110): the store — in particular every previously
stored bar of the symbol — is left exactly as it was, and no failure occurs
(the function is total). -/
theorem C10_store_data_empty_noop {V : Type} (store : List (Bar V)) (symbol : String) :
    store_data store symbol [] = store := by
  simp [store_data]

/-- **C7.**  For the close series `[10, 20, 30, 40, 50]` the stored `SMA_20`
column is the running mean of all closes seen so far — the 20-wide window
shrinks at the start of the series (`min_periods = 1`). -/
theorem C7_sma20_running_mean :
    sma_20_col [10, 20, 30, 40, 50] = [10, 15, 20, 25, 30] := by
  simp [sma_20_col, fillna_series, rolling_mean, trailing_window, List.range_succ]
  norm_num

/-! ## Helper lemmas about `store_data` -/

lemma store_data_of_ne_nil {V : Type} (store : List (Bar V)) (sym : String)
    (records : List (Bar V)) (h : records ≠ []) :
    store_data store sym records = (store.filter fun b => b.Symbol != sym) ++ records := by
  simp [store_data, h]

lemma filter_eq_of_filter_ne {V : Type} (store : List (Bar V)) (sym t : String)
    (h : t ≠ sym) :
    ((store.filter fun b => b.Symbol != sym).filter fun b => b.Symbol == t) =
      store.filter fun b => b.Symbol == t := by
  rw [List.filter_filter]
  apply List.filter_congr
  intro b _
  by_cases hb : b.Symbol = t
  · simp [hb, h]
  · simp [hb]

lemma filter_self_of_all {V : Type} (records : List (Bar V)) (sym : String)
    (h : ∀ b ∈ records, b.Symbol = sym) :
    (records.filter fun b => b.Symbol == sym) = records :=
  List.filter_eq_self.2 (by intro b hb; simp [h b hb])

lemma filter_nil_of_all_eq {V : Type} (records : List (Bar V)) (sym t : String)
    (hne : t ≠ sym) (h : ∀ b ∈ records, b.Symbol = sym) :
    (records.filter fun b => b.Symbol == t) = [] :=
  List.filter_eq_nil_iff.2 (by intro b hb; simp [h b hb, Ne.symm hne])

lemma filter_ne_nil_of_all_eq {V : Type} (records : List (Bar V)) (sym : String)
    (h : ∀ b ∈ records, b.Symbol = sym) :
    (records.filter fun b => b.Symbol != sym) = [] :=
  List.filter_eq_nil_iff.2 (by intro b hb; simp [h b hb])

/-- After a non-empty `store_data`, the symbol's stored series is exactly the
inserted record list. -/
lemma stored_series_store_data_self {V : Type} (store : List (Bar V)) (sym : String)
    (records : List (Bar V)) (h : records ≠ []) (hall : ∀ b ∈ records, b.Symbol = sym) :
    stored_series (store_data store sym records) sym = records := by
  rw [store_data_of_ne_nil store sym records h, stored_series, List.filter_append,
    filter_self_of_all records sym hall]
  rw [List.filter_filter]
  have : ∀ b ∈ store, ((fun b : Bar V => b.Symbol == sym && b.Symbol != sym) b) = false := by
    intro b _
    by_cases hb : b.Symbol = sym <;> simp [hb]
  rw [List.filter_eq_nil_iff.2 (by intro b hb; simp_all)]
  simp

/-- `store_data` for one symbol leaves every other symbol's series untouched. -/
lemma stored_series_store_data_other {V : Type} (store : List (Bar V)) (sym t : String)
    (records : List (Bar V)) (hne : t ≠ sym) (hall : ∀ b ∈ records, b.Symbol = sym) :
    stored_series (store_data store sym records) t = stored_series store t := by
  by_cases h : records = []
  · simp [h, store_data]
  · rw [store_data_of_ne_nil store sym records h, stored_series, List.filter_append,
      filter_eq_of_filter_ne store sym t hne, filter_nil_of_all_eq records sym t hne hall]
    simp [stored_series]

/-- Replacing a symbol's rows twice with the same records is the same as
replacing them once. -/
lemma store_data_idem {V : Type} (store : List (Bar V)) (sym : String)
    (records : List (Bar V)) (hall : ∀ b ∈ records, b.Symbol = sym) :
    store_data (store_data store sym records) sym records = store_data store sym records := by
  by_cases h : records = []
  · simp [h, store_data]
  · rw [store_data_of_ne_nil store sym records h,
      store_data_of_ne_nil _ sym records h, List.filter_append,
      filter_ne_nil_of_all_eq records sym hall, List.filter_filter]
    have : ∀ b ∈ store, ((fun b : Bar V => b.Symbol != sym && b.Symbol != sym) b) =
        ((fun b : Bar V => b.Symbol != sym) b) := by
      intro b _; by_cases hb : b.Symbol = sym <;> simp [hb]
    rw [List.filter_congr this]
    simp

/-! ## C2: full replace -/

/-- **C2.**  `store_data` with a non-empty record list is delete-then-insert
(lines 116–119): afterwards the store holds, for the symbol, exactly the new
records — every previously stored row of the symbol is gone — while any other
symbol's series is untouched. -/
theorem C2_full_replace {V : Type} (store : List (Bar V)) (sym : String)
    (records : List (Bar V)) (h : records ≠ []) (hall : ∀ b ∈ records, b.Symbol = sym) :
    store_data store sym records = (store.filter fun b => b.Symbol != sym) ++ records ∧
    stored_series (store_data store sym records) sym = records ∧
    ∀ t, t ≠ sym → stored_series (store_data store sym records) t = stored_series store t := by
  refine ⟨store_data_of_ne_nil store sym records h,
    stored_series_store_data_self store sym records h hall,
    fun t ht => stored_series_store_data_other store sym t records ht hall⟩

/-- **C2, witness.** -/
theorem C2_full_replace_witness :
    ([mkBar "S" 100 1, mkBar "T" 3 7] ≠ ([] : List (Bar ℚ)) ∧
      ∀ b ∈ [mkBar "S" 100 1], b.Symbol = "S") ∧
    (store_data [mkBar "S" 100 1, mkBar "T" 3 7] "S" [mkBar "S" 11 2] =
        ([mkBar "S" 100 1, mkBar "T" 3 7].filter fun b => b.Symbol != "S") ++ [mkBar "S" 11 2] ∧
      stored_series (store_data [mkBar "S" 100 1, mkBar "T" 3 7] "S" [mkBar "S" 11 2]) "S" =
        [mkBar "S" 11 2] ∧
      ∀ t, t ≠ "S" →
        stored_series (store_data [mkBar "S" 100 1, mkBar "T" 3 7] "S" [mkBar "S" 11 2]) t =
          stored_series [mkBar "S" 100 1, mkBar "T" 3 7] t) :=
  ⟨⟨by decide, by decide⟩,
    C2_full_replace [mkBar "S" 100 1, mkBar "T" 3 7] "S" [mkBar "S" 11 2]
      (by decide) (by decide)⟩

/-! ## C1: no incremental upsert -/

/-- **C1, amended.**  The persist step never upserts: with a non-empty record
list it deletes every stored row of the symbol and inserts only the fetched
records, so the symbol's series afterwards carries exactly the refetched
dates, and every previously stored bar of the symbol that is not among the
new records — in particular every bar whose date was not refetched — is
removed instead of preserved. -/
theorem C1_no_upsert {V : Type} (store : List (Bar V)) (sym : String)
    (records : List (Bar V)) (h : records ≠ []) (hall : ∀ b ∈ records, b.Symbol = sym) :
    (stored_series (store_data store sym records) sym).map (fun b => b.Date) =
      records.map (fun b => b.Date) ∧
    ∀ b ∈ store, b.Symbol = sym → b ∉ records → b ∉ store_data store sym records := by
  constructor
  · rw [stored_series_store_data_self store sym records h hall]
  · intro b _ hbsym hbnew hmem
    rw [store_data_of_ne_nil store sym records h] at hmem
    rcases List.mem_append.1 hmem with hl | hr
    · have := List.of_mem_filter hl
      simp [hbsym] at this
    · exact hbnew hr

/-- **C1, witness.** -/
theorem C1_no_upsert_witness :
    (refetchBars ≠ [] ∧ ∀ b ∈ refetchBars, b.Symbol = "S") ∧
    ((stored_series (store_data legacyStore "S" refetchBars) "S").map (fun b => b.Date) =
        refetchBars.map (fun b => b.Date) ∧
      ∀ b ∈ legacyStore, b.Symbol = "S" → b ∉ refetchBars →
        b ∉ store_data legacyStore "S" refetchBars) :=
  ⟨⟨by decide, by decide⟩,
    C1_no_upsert legacyStore "S" refetchBars (by decide) (by decide)⟩

/-! ## C3: idempotence of a repeated sync -/

lemma mem_mkBars_symbol {V : Type} (sym : String) :
    ∀ (rs : List RawBar) (cs ds : List ℚ) (vs : List V) (ms ns : List ℚ),
      ∀ b ∈ mkBars sym rs cs ds vs ms ns, b.Symbol = sym := by
  intro rs
  induction rs with
  | nil => intro cs ds vs ms ns b hb; simp [mkBars] at hb
  | cons r rs ih =>
    intro cs ds vs ms ns b hb
    match cs, ds, vs, ms, ns with
    | [], _, _, _, _ => simp [mkBars] at hb
    | _ :: _, [], _, _, _ => simp [mkBars] at hb
    | _ :: _, _ :: _, [], _, _ => simp [mkBars] at hb
    | _ :: _, _ :: _, _ :: _, [], _ => simp [mkBars] at hb
    | _ :: _, _ :: _, _ :: _, _ :: _, [] => simp [mkBars] at hb
    | c :: cs, d :: ds, v :: vs, m :: ms, n :: ns =>
      rw [mkBars] at hb
      rcases List.mem_cons.1 hb with hb | hb
      · rw [hb]
      · exact ih cs ds vs ms ns b hb

/-- Every record produced by the per-symbol pipeline carries that symbol
(line 84 sets the `Symbol` column). -/
lemma processSymbol_symbol (sym : String) (raw : List RawBar) :
    ∀ b ∈ processSymbol sym raw, b.Symbol = sym := by
  intro b hb
  simp only [processSymbol] at hb
  by_cases h1 : raw.isEmpty = true
  · rw [if_pos h1] at hb; simp at hb
  · rw [if_neg h1] at hb
    by_cases h2 : (raw.filter fun r => r.Close.isSome).isEmpty = true
    · rw [if_pos h2] at hb; simp at hb
    · rw [if_neg h2] at hb
      exact mem_mkBars_symbol sym _ _ _ _ _ _ b hb

/-- **C3.**  Running the sync twice in a row against a source that returns
the same upstream data both times (the same deterministic `f`) leaves the
store — in particular the symbol's stored series — exactly as it was after
the first run: the second run deletes the rows the first run inserted and
re-inserts identical records. -/
theorem C3_sync_idempotent (f : String → Except String (List RawBar)) (S : String)
    (store : List (Bar ℝ)) :
    (fetch_stock_data f [S] (fetch_stock_data f [S] store).fst).fst =
      (fetch_stock_data f [S] store).fst ∧
    stored_series (fetch_stock_data f [S] (fetch_stock_data f [S] store).fst).fst S =
      stored_series (fetch_stock_data f [S] store).fst S := by
  have hstore : (fetch_stock_data f [S] (fetch_stock_data f [S] store).fst).fst =
      (fetch_stock_data f [S] store).fst := by
    cases h : f S with
    | error e => simp [fetch_stock_data, h]
    | ok raw =>
      by_cases hrec : (processSymbol S raw).isEmpty
      · simp [fetch_stock_data, h, hrec]
      · simp only [fetch_stock_data, h, hrec, if_false]
        exact store_data_idem store S (processSymbol S raw) (processSymbol_symbol S raw)
  exact ⟨hstore, by rw [hstore]⟩

/-! ## C4: partial-failure isolation and the shape of the result -/

/-- Only symbols that were actually passed to the loop can appear in
`all_data`. -/
lemma fetch_stock_data_symbols_subset (f : String → Except String (List RawBar)) :
    ∀ (syms : List String) (store : List (Bar ℝ)) (s : String),
      s ∈ (fetch_stock_data f syms store).snd.map Prod.fst → s ∈ syms := by
  intro syms
  induction syms with
  | nil => intro store s hs; simp [fetch_stock_data] at hs
  | cons t rest ih =>
    intro store s hs
    cases h : f t with
    | error e =>
      simp only [fetch_stock_data, h] at hs
      exact List.mem_cons_of_mem t (ih store s hs)
    | ok raw =>
      simp only [fetch_stock_data, h] at hs
      by_cases hrec : (processSymbol t raw).isEmpty = true
      · rw [if_pos hrec] at hs
        exact List.mem_cons_of_mem t (ih store s hs)
      · rw [if_neg hrec] at hs
        simp only [List.map_cons, List.mem_cons] at hs
        rcases hs with hs | hs
        · exact hs ▸ List.mem_cons_self t rest
        · exact List.mem_cons_of_mem t (ih _ s hs)

/-- **C4, amended.**  A source failure for one symbol is caught inside the
loop (lines 98–100): the call raises nothing (the embedded loop is a total
function), and a two-symbol sync in which the second symbol's fetch raises
behaves exactly like syncing the first symbol alone — the first symbol's
series is fully updated in the store.  The failed symbol is simply absent
from the returned `all_data`; the result carries no failure marker of any
kind. -/
theorem C4_partial_failure_isolation (f : String → Except String (List RawBar))
    (g b : String) (e : String) (store : List (Bar ℝ)) (hb : f b = .error e) :
    fetch_stock_data f [g, b] store = fetch_stock_data f [g] store ∧
    (b ≠ g → b ∉ (fetch_stock_data f [g, b] store).snd.map Prod.fst) := by
  have heq : fetch_stock_data f [g, b] store = fetch_stock_data f [g] store := by
    cases hg : f g with
    | error e2 => simp [fetch_stock_data, hg, hb]
    | ok raw =>
      by_cases hrec : (processSymbol g raw).isEmpty = true
      · simp [fetch_stock_data, hg, hb, hrec]
      · simp [fetch_stock_data, hg, hb, hrec]
  refine ⟨heq, fun hne hmem => ?_⟩
  rw [heq] at hmem
  have := fetch_stock_data_symbols_subset f [g] store b hmem
  simp at this
  exact hne this

/-! ## C5 / C6: the derived columns and their fallback values -/

lemma pct_change_length (l : List ℚ) : (pct_change l).length = l.length := by
  cases l with
  | nil => simp [pct_change]
  | cons x xs => simp [pct_change]

lemma zipWith_pct_getElem? :
    ∀ (l : List ℚ) (i : ℕ) (a b : ℚ), l[i]? = some a → l[i + 1]? = some b →
      (List.zipWith (fun prev cur => some ((cur - prev) / prev)) l l.tail)[i]? =
        some (some ((b - a) / a)) := by
  intro l
  induction l with
  | nil => intro i a b ha _; simp at ha
  | cons x xs ih =>
    intro i a b ha hb
    cases xs with
    | nil => simp at hb
    | cons y ys =>
      cases i with
      | zero =>
        simp at ha hb
        simp [ha, hb]
      | succ n =>
        rw [List.getElem?_cons_succ] at ha hb
        have := ih n a b ha hb
        simpa using this

/-- The value of `pct_change` at any position past the first, read off from
two consecutive closes. -/
lemma pct_change_getElem?_succ (l : List ℚ) (i : ℕ) (a b : ℚ)
    (ha : l[i]? = some a) (hb : l[i + 1]? = some b) :
    (pct_change l)[i + 1]? = some (some ((b - a) / a)) := by
  cases l with
  | nil => simp at ha
  | cons x xs =>
    rw [pct_change]
    simpa using zipWith_pct_getElem? (x :: xs) i a b ha hb

/-- **C6.**  In the stored `Daily_Return` column, the first row holds `0`
(the `pct_change` NaN filled by line 78) and each later row `i` holds
`close[i] / close[i-1] - 1` — provided the previous close is non-zero, the
only case the rational embedding can speak about (a zero previous close gives
a float infinity in pandas, not a number). -/
theorem C6_daily_return_values (closes : List ℚ) :
    (∀ c rest, closes = c :: rest → (daily_return_col closes)[0]? = some 0) ∧
    (∀ (pre : List ℚ) (a b : ℚ) (post : List ℚ), closes = pre ++ a :: b :: post → a ≠ 0 →
      (daily_return_col closes)[pre.length + 1]? = some (b / a - 1)) := by
  constructor
  · intro c rest h
    subst h
    simp [daily_return_col, fillna_scalar, pct_change]
  · intro pre a b post h ha
    subst h
    have ha' : (pre ++ a :: b :: post)[pre.length]? = some a := by
      rw [List.getElem?_append_right (le_refl _)]
      simp
    have hb' : (pre ++ a :: b :: post)[pre.length + 1]? = some b := by
      rw [List.getElem?_append_right (by omega)]
      have : pre.length + 1 - pre.length = 1 := by omega
      rw [this]
      simp
    have hp := pct_change_getElem?_succ _ pre.length a b ha' hb'
    rw [daily_return_col, fillna_scalar, List.getElem?_map, hp]
    simp
    rw [sub_div, div_self ha]

/-- **C6, witness.** -/
theorem C6_daily_return_values_witness :
    (daily_return_col [10, 20])[0]? = some 0 ∧
    (daily_return_col [10, 20])[1]? = some ((20 : ℚ) / 10 - 1) :=
  ⟨(C6_daily_return_values [10, 20]).1 10 [20] rfl,
    (C6_daily_return_values [10, 20]).2 [] 10 20 [] rfl (by decide)⟩

/-- **C5, counterexample.**  The claim says every derived value with an
undefined window falls back to the current close.  For a single-bar series
the `Daily_Return` window is undefined, yet the stored value is the
`fillna(0)` fill — `0`, not the close `10` (lines 78–79 fill returns and
volatility with `0`; only the SMA columns are filled from the close). -/
theorem C5_fallback_counterexample :
    (processSymbol "S" [⟨1, none, none, none, some 10, none⟩]).map (fun b => b.Daily_Return) =
      [0] ∧
    (processSymbol "S" [⟨1, none, none, none, some 10, none⟩]).map (fun b => b.Close) = [10] ∧
    (0 : ℚ) ≠ 10 := by
  decide

/-- **C5, amended.**  Every derived column is total (a numeric value for
every input row, never a missing-value sentinel), but the fallbacks differ by
column: the undefined `Daily_Return` (row 0) and the undefined `Volatility`
(rows 0 and 1, where fewer than two valid returns exist) are filled with `0`,
while the SMA columns are filled from the current close — vacuously, since
with `min_periods = 1` their rolling windows are defined at every row. -/
theorem C5_fill_values (closes : List ℚ) :
    ((daily_return_col closes).length = closes.length ∧
      (volatility_col closes).length = closes.length ∧
      (sma_20_col closes).length = closes.length ∧
      (sma_50_col closes).length = closes.length) ∧
    (∀ c rest, closes = c :: rest →
      (daily_return_col closes)[0]? = some 0 ∧ (volatility_col closes)[0]? = some 0) ∧
    (∀ c c' rest, closes = c :: c' :: rest → (volatility_col closes)[1]? = some 0) ∧
    (∀ i, i < closes.length →
      (∃ q, (rolling_mean 20 closes)[i]? = some (some q)) ∧
      (∃ q, (rolling_mean 50 closes)[i]? = some (some q))) := by
  refine ⟨⟨?_, ?_, ?_, ?_⟩, ?_, ?_, ?_⟩
  · simp [daily_return_col, fillna_scalar, pct_change_length]
  · simp [volatility_col, fillna_scalar, rolling_std, pct_change_length]
  · simp [sma_20_col, fillna_series, rolling_mean]
  · simp [sma_50_col, fillna_series, rolling_mean]
  · intro c rest h
    subst h
    constructor
    · simp [daily_return_col, fillna_scalar, pct_change]
    · simp [volatility_col, fillna_scalar, rolling_std, List.getElem?_map,
        pct_change_length, List.getElem?_range, pct_change, trailing_window]
  · intro c c' rest h
    subst h
    simp [volatility_col, fillna_scalar, rolling_std, List.getElem?_map,
      pct_change_length, List.getElem?_range, pct_change, trailing_window, List.take_succ_cons]
  · intro i hi
    have hwin : ∀ w, 1 ≤ w → 1 ≤ (trailing_window closes i w).length := by
      intro w hw
      simp only [trailing_window, List.length_drop, List.length_take]
      omega
    constructor
    · refine ⟨(trailing_window closes i 20).sum / ((trailing_window closes i 20).length : ℚ), ?_⟩
      simp [rolling_mean, List.getElem?_map, List.getElem?_range, hi, hwin 20 (by omega)]
    · refine ⟨(trailing_window closes i 50).sum / ((trailing_window closes i 50).length : ℚ), ?_⟩
      simp [rolling_mean, List.getElem?_map, List.getElem?_range, hi, hwin 50 (by omega)]

/-- **C5, amended-theorem witness.** -/
theorem C5_fill_values_witness :
    (daily_return_col [10, 20])[0]? = some 0 ∧ (volatility_col [10, 20])[0]? = some 0 ∧
    (volatility_col [10, 20])[1]? = some 0 ∧
    (∃ q, (rolling_mean 20 [10, 20])[0]? = some (some q)) :=
  ⟨((C5_fill_values [10, 20]).2.1 10 [20] rfl).1,
    ((C5_fill_values [10, 20]).2.1 10 [20] rfl).2,
    (C5_fill_values [10, 20]).2.2.1 10 20 [] rfl,
    ((C5_fill_values [10, 20]).2.2.2 0 (by decide)).1⟩

/-- A fetched two-row dataset for the healthy symbol. -/
def goodRaw : List RawBar :=
  [⟨1, none, none, none, some 10, none⟩, ⟨2, none, none, none, some 11, none⟩]

/-- A market data source for which `"BAD"` raises a transport failure and
every other symbol succeeds. -/
def sourceBoom : String → Except String (List RawBar) :=
  fun s => if s == "BAD" then .error "SourceUnavailable" else .ok goodRaw

/-- **C4, counterexample.**  The claim says the call's result reports
`"BAD"` as failed.  The code's result (`all_data`, line 95) contains only the
successfully processed symbols: syncing `["GOOD", "BAD"]` against a source
that raises for `"BAD"` returns data for `"GOOD"` alone, with no entry — and
hence no failure report — for `"BAD"`. -/
theorem C4_no_failed_report_counterexample :
    (fetch_stock_data sourceBoom ["GOOD", "BAD"] []).snd.map Prod.fst = ["GOOD"] ∧
    "BAD" ∉ (fetch_stock_data sourceBoom ["GOOD", "BAD"] []).snd.map Prod.fst := by
  decide

/-! ## Summary metrics (`get_summary_metrics`, lines 126–177) -/

/-- Python's built-in `round` to the nearest integer with ties to even
(banker's rounding), over any ordered field with a floor. -/
def roundHalfEven {α : Type} [LinearOrderedField α] [FloorRing α] (x : α) : ℤ :=
  let n := ⌊x⌋
  if x - n < 1 / 2 then n
  else if 1 / 2 < x - n then n + 1
  else if n % 2 = 0 then n else n + 1

/-- Python's `round(x, 2)` — round to two decimal places. -/
def round2 {α : Type} [LinearOrderedField α] [FloorRing α] (x : α) : α :=
  (roundHalfEven (x * 100) : α) / 100

lemma round2_exists_int {α : Type} [LinearOrderedField α] [FloorRing α] (x : α) :
    ∃ n : ℤ, round2 x = (n : α) / 100 :=
  ⟨roundHalfEven (x * 100), rfl⟩

lemma roundHalfEven_intCast {α : Type} [LinearOrderedField α] [FloorRing α] (n : ℤ) :
    roundHalfEven ((n : α)) = n := by
  simp [roundHalfEven, Int.floor_intCast]

lemma round2_zero {α : Type} [LinearOrderedField α] [FloorRing α] :
    round2 (0 : α) = 0 := by
  have h0 : ((0 : α) * 100) = ((0 : ℤ) : α) := by norm_num
  rw [round2, h0, roundHalfEven_intCast]
  norm_num

/-- An integer-valued quantity (such as a date) is unchanged by 2-decimal
rounding. -/
lemma round2_natCast {α : Type} [LinearOrderedField α] [FloorRing α] (d : ℕ) :
    round2 ((d : α)) = d := by
  have h : ((d : α) * 100) = (((d * 100 : ℕ) : ℤ) : α) := by push_cast; ring
  rw [round2, h, roundHalfEven_intCast]
  push_cast
  rw [mul_div_assoc]
  norm_num

/-- Insertion step of the store's `sort('Date', -1)`. -/
def insertByDateDesc {V : Type} (b : Bar V) : List (Bar V) → List (Bar V)
  | [] => [b]
  | c :: cs => if c.Date ≤ b.Date then b :: c :: cs else c :: insertByDateDesc b cs

/-- The store's `sort('Date', -1)` — documents ordered by date, newest
first. -/
def sortByDateDesc {V : Type} (l : List (Bar V)) : List (Bar V) :=
  l.foldr insertByDateDesc []

/-- `collection.find({'Symbol': symbol}).sort('Date', -1).limit(30)`
(lines 139–144): the symbol's documents, newest first, at most 30. -/
def windowFor {V : Type} (store : List (Bar V)) (symbol : String) : List (Bar V) :=
  (sortByDateDesc (stored_series store symbol)).take 30

/-- Line 160: `((latest / oldest - 1) * 100) if oldest != 0 else 0`. -/
def monthly_return_calc (latest_price oldest_price : ℚ) : ℚ :=
  if oldest_price ≠ 0 then (latest_price / oldest_price - 1) * 100 else 0

lemma monthly_return_calc_of_ne (l o : ℚ) (h : o ≠ 0) :
    monthly_return_calc l o = (l / o - 1) * 100 := by
  rw [monthly_return_calc, if_pos h]

lemma monthly_return_calc_of_eq (l : ℚ) : monthly_return_calc l 0 = 0 := by
  rw [monthly_return_calc]
  simp

/-- Lines 163–164: the sample standard deviation (`ddof = 1`) of the window's
daily returns — NaN when fewer than two observations exist, in which case the
annualized volatility is set to `0` — annualized by `√252 × 100`. -/
noncomputable def annualized_volatility_calc (returns : List ℚ) : ℝ :=
  if 2 ≤ returns.length then
    Real.sqrt ((sample_variance returns : ℚ) : ℝ) * Real.sqrt 252 * 100
  else 0

/-- The per-symbol summary record built at lines 166–171. -/
structure SummaryMetrics where
  latest_price : ℚ
  monthly_return : ℚ
  volatility : ℝ
  last_updated : ℕ

/-- The per-symbol body of `get_summary_metrics` (lines 137–171): `none`
when the symbol has no stored documents (the symbol is skipped, line 146),
otherwise the four metrics.  `iloc[0]` of the descending window is its head
(the newest document), `iloc[-1]` its last element (the oldest in the
window); `monthly_return` is computed from the *unrounded* prices and each
numeric metric is rounded only as it is placed in the output record. -/
noncomputable def summaryFor {V : Type} (store : List (Bar V)) (symbol : String) :
    Option SummaryMetrics :=
  match windowFor store symbol with
  | [] => none
  | d0 :: rest =>
    some { latest_price := round2 d0.Close
           monthly_return := round2 (monthly_return_calc d0.Close ((rest.getLastD d0).Close))
           volatility :=
             round2 (annualized_volatility_calc ((d0 :: rest).map fun b => b.Daily_Return))
           last_updated := d0.Date }

/-- `get_summary_metrics` (lines 126–177): per-symbol metrics for each
requested symbol, silently omitting symbols without stored data. -/
noncomputable def get_summary_metrics {V : Type} (store : List (Bar V))
    (symbols : List String) : List (String × SummaryMetrics) :=
  symbols.filterMap fun s => (summaryFor store s).map fun m => (s, m)

/-- **C8.**  `period_return` (the code's `monthly_return`): when the oldest
close of the window is non-zero the output is `(latest/oldest − 1) × 100`
(carried to the output through the 2-decimal boundary rounding of line 168),
and when the oldest close is `0` the guard of line 160 yields exactly `0` —
the computation is a total function of the window: no division by zero is
evaluated, no infinity appears (the embedding is rational) and no exception
is raised. -/
theorem C8_period_return_zero_safe {V : Type} (store : List (Bar V)) (symbol : String)
    (d0 : Bar V) (rest : List (Bar V)) (h : windowFor store symbol = d0 :: rest) :
    ∃ m, summaryFor store symbol = some m ∧
      ((rest.getLastD d0).Close ≠ 0 →
        m.monthly_return = round2 ((d0.Close / (rest.getLastD d0).Close - 1) * 100)) ∧
      ((rest.getLastD d0).Close = 0 → m.monthly_return = 0) := by
  have hs : summaryFor store symbol = some
      { latest_price := round2 d0.Close
        monthly_return := round2 (monthly_return_calc d0.Close ((rest.getLastD d0).Close))
        volatility :=
          round2 (annualized_volatility_calc ((d0 :: rest).map fun b => b.Daily_Return))
        last_updated := d0.Date } := by
    simp only [summaryFor, h]
  refine ⟨_, hs, fun h0 => ?_, fun h0 => ?_⟩
  · simp only [monthly_return_calc_of_ne d0.Close _ h0]
  · simp only [h0, monthly_return_calc_of_eq, round2_zero]

/-- **C8, witness.** -/
theorem C8_period_return_zero_safe_witness :
    (windowFor [mkBar "A" 5 7] "A" = [mkBar "A" 5 7]) ∧
    (∃ m, summaryFor [mkBar "A" 5 7] "A" = some m ∧
      ((mkBar "A" 5 7).Close ≠ 0 →
        m.monthly_return = round2 (((mkBar "A" 5 7).Close / (mkBar "A" 5 7).Close - 1) * 100)) ∧
      ((mkBar "A" 5 7).Close = 0 → m.monthly_return = 0)) :=
  ⟨by decide, C8_period_return_zero_safe [mkBar "A" 5 7] "A" (mkBar "A" 5 7) [] (by decide)⟩

/-- **C9.**  Every field of the summary record is a 2-decimal value produced
by rounding only at the output boundary: the three numeric fields equal the
2-decimal rounding of their full-precision formulas (the unrounded close,
the return computed from unrounded prices, the annualized volatility), each
is an integer number of hundredths, and `last_updated` is the date of the
newest bar of the window — a date, emitted as-is, trivially unchanged by
2-decimal rounding. -/
theorem C9_rounded_at_boundary {V : Type} (store : List (Bar V)) (symbol : String)
    (d0 : Bar V) (rest : List (Bar V)) (h : windowFor store symbol = d0 :: rest) :
    ∃ m, summaryFor store symbol = some m ∧
      (∀ symbols, symbol ∈ symbols → (symbol, m) ∈ get_summary_metrics store symbols) ∧
      m.latest_price = round2 d0.Close ∧
      m.monthly_return = round2 (monthly_return_calc d0.Close ((rest.getLastD d0).Close)) ∧
      m.volatility = round2 (annualized_volatility_calc ((d0 :: rest).map fun b => b.Daily_Return)) ∧
      m.last_updated = d0.Date ∧
      (∃ n : ℤ, m.latest_price = (n : ℚ) / 100) ∧
      (∃ n : ℤ, m.monthly_return = (n : ℚ) / 100) ∧
      (∃ n : ℤ, m.volatility = (n : ℝ) / 100) ∧
      round2 ((m.last_updated : ℚ)) = (m.last_updated : ℚ) := by
  have hs : summaryFor store symbol = some
      { latest_price := round2 d0.Close
        monthly_return := round2 (monthly_return_calc d0.Close ((rest.getLastD d0).Close))
        volatility :=
          round2 (annualized_volatility_calc ((d0 :: rest).map fun b => b.Daily_Return))
        last_updated := d0.Date } := by
    simp only [summaryFor, h]
  refine ⟨_, hs, ?_, rfl, rfl, rfl, rfl, round2_exists_int _, round2_exists_int _,
    round2_exists_int _, round2_natCast _⟩
  intro symbols hmem
  exact List.mem_filterMap.2 ⟨symbol, hmem, by rw [hs]; rfl⟩

/-- **C9, witness.** -/
theorem C9_rounded_at_boundary_witness :
    (windowFor [mkBar "B" 3 4] "B" = [mkBar "B" 3 4]) ∧
    (∃ m, summaryFor [mkBar "B" 3 4] "B" = some m ∧
      (∀ symbols, "B" ∈ symbols → ("B", m) ∈ get_summary_metrics [mkBar "B" 3 4] symbols) ∧
      m.latest_price = round2 (mkBar "B" 3 4).Close ∧
      m.monthly_return = round2 (monthly_return_calc (mkBar "B" 3 4).Close (mkBar "B" 3 4).Close) ∧
      m.volatility = round2 (annualized_volatility_calc ([mkBar "B" 3 4].map fun b => b.Daily_Return)) ∧
      m.last_updated = (mkBar "B" 3 4).Date ∧
      (∃ n : ℤ, m.latest_price = (n : ℚ) / 100) ∧
      (∃ n : ℤ, m.monthly_return = (n : ℚ) / 100) ∧
      (∃ n : ℤ, m.volatility = (n : ℝ) / 100) ∧
      round2 ((m.last_updated : ℚ)) = (m.last_updated : ℚ)) :=
  ⟨by decide, C9_rounded_at_boundary [mkBar "B" 3 4] "B" (mkBar "B" 3 4) [] (by decide)⟩

/-- **C4, amended-theorem witness.** -/
theorem C4_partial_failure_isolation_witness :
    (sourceBoom "BAD" = .error "SourceUnavailable" ∧ "BAD" ≠ "GOOD") ∧
    (fetch_stock_data sourceBoom ["GOOD", "BAD"] [] = fetch_stock_data sourceBoom ["GOOD"] [] ∧
      ("BAD" ≠ "GOOD" →
        "BAD" ∉ (fetch_stock_data sourceBoom ["GOOD", "BAD"] []).snd.map Prod.fst)) :=
  ⟨⟨rfl, by decide⟩,
    C4_partial_failure_isolation sourceBoom "GOOD" "BAD" "SourceUnavailable" [] rfl⟩
